import Mathlib

/-!
Shallow embedding of src/tutor/commands/compose.py (the tutor job-execution
and service-addressing subsystem).  Engine invocations (calls to the
docker_compose callback) are modelled as lists of token lists, in the order
they are issued; raised TutorError exceptions are modelled with Except.
Helpers that live in modules outside src/ (bindmounts.parse_volumes,
bindmounts.get_path, tutor_env.pathjoin, utils.is_a_tty) are modelled from
the spec and marked as such; the terminal state is a Bool parameter and the
filesystem existence check is a Bool-valued function parameter.
-/

namespace Tutor

/-- Modelled from the spec: tutor_env.pathjoin joins the working root with
path components below the rendered environment directory; the exact
separator convention is not visible in src/, so it is modelled as a plain
slash join below an env directory. Claims only depend on this being a fixed
function of the root. -/
def pathjoin (root : String) (parts : List String) : String :=
  (parts.foldl (fun acc p => acc ++ ("/") ++ p) (root ++ ("/env")))

/-- Path of the job-compose definition file, as computed at the top of
ScriptRunner.run_job. -/
def jobs_path (root : String) : String :=
  pathjoin root (["local", "docker-compose.jobs.yml"])

/-- Embeds the Python expression command.replace applied to a newline and a
newline followed by four spaces, working on the character list. -/
def indentChars : List Char → List Char
  | [] => []
  | c :: rest =>
    if c = '\n' then c :: ' ' :: ' ' :: ' ' :: ' ' :: indentChars rest
    else c :: indentChars rest

/-- The indented command text interpolated into the deprecation alert. -/
def indent_command (cmd : String) : String :=
  String.mk (indentChars cmd.data)

/-- Fixed text of the deprecation alert before the interpolated command. -/
def alert_pre (job_service_name jp : String) : String :=
  ("The \x27") ++ job_service_name ++
  ("\x27 service does not exist in ") ++ jp ++
  (". This might be caused by an older plugin. Tutor switched to a job runner model for running one-time commands, such as database initialisation. For the record, this is the command that we are running:\n\n    ")

/-- Fixed text of the deprecation alert after the interpolated command. -/
def alert_post : String :=
  ("\n\nOld-style job running will be deprecated soon. Please inform your plugin maintainer!")

/-- The full deprecation alert emitted by the legacy fallback branch of
ScriptRunner.run_job, with the command indented for readability. -/
def alert_message (job_service_name jp cmd : String) : String :=
  alert_pre job_service_name jp ++ indent_command cmd ++ alert_post

/-- Observable outcome of one ScriptRunner.run_job call: the alerts echoed
to the user and the docker-compose engine invocations issued, in order.
Each invocation is the token list passed after root and config. -/
structure RunJobResult where
  alerts : List String
  calls : List (List String)
deriving Repr, DecidableEq

/-- Embeds ScriptRunner.run_job.  jobsServices stands for the keys of the
services mapping parsed from the job-compose file; tty stands for
utils.is_a_tty (); service and command are the two arguments. -/
def run_job (root : String) (jobsServices : List String) (tty : Bool)
    (service command : String) : RunJobResult :=
  let jp := jobs_path root
  let job_service_name := service ++ ("-job")
  let opts := if tty then [] else [("-T")]
  if job_service_name ∈ jobsServices then
    { alerts := [],
      calls := [[("-f"), jp, ("run")] ++ opts ++
                [("--rm"), job_service_name, ("sh"), ("-e"), ("-c"), command]] }
  else
    { alerts := [alert_message job_service_name jp command],
      calls := [[("run")] ++ opts ++
                [("--rm"), service, ("sh"), ("-e"), ("-c"), command]] }

/-- Engine invocations issued by the start command: one docker-compose up
call with orphan removal, the daemon flag when detached, then the requested
service names. -/
def start_calls (detach : Bool) (services : List String) : List (List String) :=
  [[("up"), ("--remove-orphans")] ++ (if detach then [("-d")] else []) ++ services]

/-- Engine invocations issued by the stop command: one docker-compose stop
call over the requested service names. -/
def stop_calls (services : List String) : List (List String) :=
  [[("stop")] ++ services]

/-- Engine invocations issued by the reboot command, which runs the stop
command body and then the start command body on the same arguments. -/
def reboot_calls (detach : Bool) (services : List String) : List (List String) :=
  stop_calls services ++ start_calls detach services

/-- Modelled after the spec wording for reboot: stop immediately followed by
start over the identical service list and detach flag.  Kept as a separate
definition so the source embedding can be compared against it. -/
def reboot_spec (detach : Bool) (services : List String) : List (List String) :=
  stop_calls services ++ start_calls detach services

/-- The two configuration flags consulted by the restart command. -/
structure Config where
  RUN_LMS : Bool
  RUN_CMS : Bool
deriving Repr, DecidableEq

/-- Expansion of one requested service name inside the restart loop: the
openedx group contributes the lms pair and the cms pair according to the two
flags; any other name passes through unchanged. -/
def restart_expand (cfg : Config) (service : String) : List String :=
  if service = ("openedx") then
    (if cfg.RUN_LMS then [("lms"), ("lms-worker")] else []) ++
    (if cfg.RUN_CMS then [("cms"), ("cms-worker")] else [])
  else [service]

/-- The accumulation loop of the restart command over the requested names. -/
def restart_services (cfg : Config) : List String → List String
  | [] => []
  | s :: rest => restart_expand cfg s ++ restart_services cfg rest

/-- The full token list handed to the engine by the restart command. -/
def restart_command (cfg : Config) (services : List String) : List String :=
  if ("all") ∈ services then [("restart")]
  else ("restart") :: restart_services cfg services

/-- Engine invocations issued by the restart command. -/
def restart_calls (cfg : Config) (services : List String) : List (List String) :=
  [restart_command cfg services]

/-- Modelled from the spec: bindmounts.parse_volumes splits a raw trailing
argument list into the ordered volume directive values and the remaining
tokens in their original relative order, recognising the long form with an
equals sign, the long form with a separate value, and the short form with a
separate value.  A trailing flag with no value is not covered by the spec
and is passed through as an ordinary token. -/
def parse_volumes : List String → List String × List String
  | [] => ([], [])
  | a :: rest =>
    if a = ("--volume") ∨ a = ("-v") then
      match rest with
      | [] => ([], [a])
      | v :: rest2 =>
        let p := parse_volumes rest2
        (v :: p.1, p.2)
    else if a.take 9 = ("--volume=") then
      let p := parse_volumes rest
      (a.drop 9 :: p.1, p.2)
    else
      let p := parse_volumes rest
      (p.1, a :: p.2)

/-- Modelled from the spec: bindmounts.get_path joins the managed root with
the volumes directory and the bind-mount name. -/
def get_path (root name : String) : String :=
  root ++ ("/volumes/") ++ name

/-- Text of the TutorError raised for a missing bind-mount directory, with
the name of the bind-mount creation command interpolated. -/
def volume_error_message (host_bind_path : String) : String :=
  ("Bind-mount volume directory ") ++ host_bind_path ++
  (" does not exist. It must first be created with the \x27bindmount\x27 command.")

/-- Body of the volume loop in dc_command for one directive: a directive
with a colon passes through unchanged; otherwise the managed path is looked
up, a TutorError is raised when it does not exist on disk, and the
directive is rewritten to the host path, a colon and the name. -/
def resolve_volume (fsExists : String → Bool) (root volume_arg : String) :
    Except String String :=
  if ':' ∈ volume_arg.data then
    Except.ok volume_arg
  else
    let host_bind_path := get_path root volume_arg
    if fsExists host_bind_path then
      Except.ok (host_bind_path ++ (":") ++ volume_arg)
    else
      Except.error (volume_error_message host_bind_path)

/-- The volume loop of dc_command: resolves each directive in order, raising
at the first failure, and flattens the results into flag and value pairs. -/
def build_volume_args (fsExists : String → Bool) (root : String) :
    List String → Except String (List String)
  | [] => Except.ok []
  | v :: rest =>
    match resolve_volume fsExists root v with
    | Except.error e => Except.error e
    | Except.ok v2 =>
      match build_volume_args fsExists root rest with
      | Except.error e => Except.error e
      | Except.ok args => Except.ok (("--volume") :: v2 :: args)

/-- Embeds dc_command: parse the volumes out of the argument list, resolve
them, and issue one engine call made of the subcommand, the volume pairs
and the remaining tokens; a failed resolution raises before any call. -/
def dc_command (fsExists : String → Bool) (root command : String)
    (args : List String) : Except String (List String) :=
  let p := parse_volumes args
  match build_volume_args fsExists root p.1 with
  | Except.error e => Except.error e
  | Except.ok volume_args => Except.ok (command :: volume_args ++ p.2)

/-- Engine invocations issued by a dc-style command outcome: one call on
success, none when the TutorError was raised first. -/
def engine_calls (r : Except String (List String)) : List (List String) :=
  match r with
  | Except.ok tokens => [tokens]
  | Except.error _ => []

/-- Embeds the run command: a wrapper around dc_command with the run
subcommand, prepending the one-shot flag and, when the terminal is not a
tty, the no-tty flag. -/
def run_passthrough (fsExists : String → Bool) (root : String) (tty : Bool)
    (args : List String) : Except String (List String) :=
  let extra_args := [("--rm")] ++ (if tty then [] else [("-T")])
  dc_command fsExists root ("run") (extra_args ++ args)

/-- Embeds the exec command: a wrapper around dc_command with the exec
subcommand and the arguments passed through unchanged. -/
def execute (fsExists : String → Bool) (root : String)
    (args : List String) : Except String (List String) :=
  dc_command fsExists root ("exec") args

/-- Embeds the logs command: a wrapper around dc_command with the logs
subcommand, the follow and tail options and the service names. -/
def logs (fsExists : String → Bool) (root : String) (follow : Bool)
    (tail : Option Nat) (service : List String) : Except String (List String) :=
  let args :=
    (if follow then [("--follow")] else []) ++
    (match tail with
     | some n => [("--tail"), toString n]
     | none => []) ++ service
  dc_command fsExists root ("logs") args

/-- Checks that the pattern characters stand at the head of the text. -/
def leadsWith : List Char → List Char → Bool
  | [], _ => true
  | _ :: _, [] => false
  | a :: as, b :: bs => a == b && leadsWith as bs

/-- Checks that the pattern characters occur contiguously in the text. -/
def occursIn (p : List Char) : List Char → Bool
  | [] => p.isEmpty
  | c :: rest => leadsWith p (c :: rest) || occursIn p rest

/-- Substring test on strings, through their character lists. -/
def strContains (s pat : String) : Bool :=
  occursIn pat.data s.data

/-- The token standing right after the first occurrence of the given flag,
used to read the target service of a run invocation off its token list. -/
def token_after (flag : String) : List String → Option String
  | [] => none
  | a :: rest => if a = flag then rest.head? else token_after flag rest

/-- The flattened flag and value pairs produced by the volume loop. -/
def volume_pairs : List String → List String
  | [] => []
  | v :: rest => ("--volume") :: v :: volume_pairs rest

section Lemmas

/-- A character of the right summand belongs to an appended string. -/
theorem mem_str_append_right {c : Char} (s t : String) (h : c ∈ t.data) :
    c ∈ (s ++ t).data := by
  rw [String.data_append]; exact List.mem_append_right _ h

/-- A character of the left summand belongs to an appended string. -/
theorem mem_str_append_left {c : Char} (s t : String) (h : c ∈ s.data) :
    c ∈ (s ++ t).data := by
  rw [String.data_append]; exact List.mem_append_left _ h

/-- The job-compose path always holds a slash. -/
theorem slash_mem_jobs_path (root : String) : '/' ∈ (jobs_path root).data := by
  show '/' ∈ ((((root ++ ("/env")) ++ ("/")) ++ ("local")) ++ ("/") ++ ("docker-compose.jobs.yml")).data
  exact mem_str_append_left _ _ (mem_str_append_right _ _ (by decide))

/-- The job-compose path never equals a string without a slash. -/
theorem jobs_path_ne (root x : String) (h : '/' ∉ x.data) : jobs_path root ≠ x := by
  intro he
  exact h (he ▸ slash_mem_jobs_path root)

/-- Appending the job suffix always changes the name. -/
theorem append_job_ne_self (s : String) : s ++ ("-job") ≠ s := by
  intro he
  have h2 := congrArg String.length he
  rw [String.length_append] at h2
  have h3 : ("-job").length = 4 := rfl
  omega

/-- A job service name is never the no-tty flag. -/
theorem append_job_ne_T (s : String) : s ++ ("-job") ≠ ("-T") := by
  intro he
  have h2 := congrArg String.length he
  rw [String.length_append] at h2
  have h3 : ("-job").length = 4 := rfl
  have h4 : ("-T").length = 2 := rfl
  omega

/-- Unfolding run_job when the job service is present. -/
theorem run_job_in (root : String) (jobsServices : List String) (tty : Bool)
    (service command : String) (h : service ++ ("-job") ∈ jobsServices) :
    run_job root jobsServices tty service command =
      { alerts := [],
        calls := [[("-f"), jobs_path root, ("run")] ++ (if tty then [] else [("-T")]) ++
                  [("--rm"), service ++ ("-job"), ("sh"), ("-e"), ("-c"), command]] } := by
  simp [run_job, h]

/-- Unfolding run_job when the job service is absent. -/
theorem run_job_notin (root : String) (jobsServices : List String) (tty : Bool)
    (service command : String) (h : service ++ ("-job") ∉ jobsServices) :
    run_job root jobsServices tty service command =
      { alerts := [alert_message (service ++ ("-job")) (jobs_path root) command],
        calls := [[("run")] ++ (if tty then [] else [("-T")]) ++
                  [("--rm"), service, ("sh"), ("-e"), ("-c"), command]] } := by
  simp [run_job, h]

/-- Walking past a token that is not the searched flag. -/
theorem token_after_cons_ne (flag a : String) (rest : List String) (h : a ≠ flag) :
    token_after flag (a :: rest) = token_after flag rest := by
  simp [token_after, h]

/-- Reading the token right after the searched flag. -/
theorem token_after_cons_eq (flag : String) (rest : List String) :
    token_after flag (flag :: rest) = rest.head? := by
  simp [token_after]

/-- A pattern placed at the head of a character list is found there. -/
theorem leadsWith_append (p b : List Char) : leadsWith p (p ++ b) = true := by
  induction p with
  | nil => rfl
  | cons c cs ih => simp [leadsWith, ih]

/-- A pattern spliced into a character list occurs in it. -/
theorem occursIn_append (a p b : List Char) : occursIn p (a ++ (p ++ b)) = true := by
  induction a with
  | nil =>
    cases hp : p ++ b with
    | nil =>
      have : p = [] := by
        cases p with
        | nil => rfl
        | cons c cs => simp at hp
      simp [this, occursIn]
    | cons c cs =>
      simp only [List.nil_append, hp, occursIn]
      rw [← hp, leadsWith_append]
      simp
  | cons x xs ih =>
    simp only [List.cons_append, occursIn, List.append_eq, ih, Bool.or_true]

/-- A string built around a pattern contains that pattern. -/
theorem strContains_parts (x m y : String) : strContains (x ++ m ++ y) m = true := by
  unfold strContains
  rw [String.data_append, String.data_append, List.append_assoc]
  exact occursIn_append x.data m.data y.data

/-- The deprecation alert contains the indented command text. -/
theorem alert_contains_indented (jsn jp cmd : String) :
    strContains (alert_message jsn jp cmd) (indent_command cmd) = true :=
  strContains_parts (alert_pre jsn jp) (indent_command cmd) alert_post

/-- Unfolding parse_volumes past a flag with a separate value. -/
theorem parse_volumes_sep_flag (a v : String) (rest : List String)
    (h : a = ("--volume") ∨ a = ("-v")) :
    parse_volumes (a :: v :: rest) =
      (v :: (parse_volumes rest).1, (parse_volumes rest).2) := by
  simp [parse_volumes, h]

/-- Unfolding parse_volumes past an ordinary token. -/
theorem parse_volumes_other (a : String) (rest : List String)
    (h1 : ¬(a = ("--volume") ∨ a = ("-v"))) (h2 : ¬ a.take 9 = ("--volume=")) :
    parse_volumes (a :: rest) = ((parse_volumes rest).1, a :: (parse_volumes rest).2) := by
  cases rest with
  | nil => simp [parse_volumes.eq_2, parse_volumes.eq_1, h1, h2]
  | cons b bs => simp [parse_volumes.eq_3, h1, h2]

/-- Unfolding parse_volumes past a flag written with an equals sign. -/
theorem parse_volumes_eq_form (a : String) (rest : List String)
    (h1 : ¬(a = ("--volume") ∨ a = ("-v"))) (h2 : a.take 9 = ("--volume=")) :
    parse_volumes (a :: rest) =
      (a.drop 9 :: (parse_volumes rest).1, (parse_volumes rest).2) := by
  cases rest with
  | nil => simp [parse_volumes.eq_2, parse_volumes.eq_1, h1, h2]
  | cons b bs => simp [parse_volumes.eq_3, h1, h2]

/-- The non-volume side of parse_volumes keeps a subsequence of the raw
arguments, in their original relative order. -/
theorem parse_volumes_snd_sublist : ∀ args, ((parse_volumes args).2).Sublist args := by
  intro args
  induction args using parse_volumes.induct with
  | case1 => simp [parse_volumes.eq_1]
  | case2 a h => simp [parse_volumes.eq_2, h]
  | case3 a h v rest ih =>
    rw [parse_volumes_sep_flag a v rest h]
    exact (ih.cons v).cons a
  | case4 a rest h1 h2 ih =>
    rw [parse_volumes_eq_form a rest h1 h2]
    exact ih.cons a
  | case5 a rest h1 h2 ih =>
    rw [parse_volumes_other a rest h1 h2]
    exact ih.cons₂ a

/-- Membership in the flattened volume pairs. -/
theorem mem_volume_pairs : ∀ (rs : List String) (x : String),
    x ∈ volume_pairs rs → x = ("--volume") ∨ x ∈ rs := by
  intro rs
  induction rs with
  | nil => intro x h; cases h
  | cons v rest ih =>
    intro x h
    rcases List.mem_cons.mp h with h1 | h1
    · exact Or.inl h1
    · rcases List.mem_cons.mp h1 with h2 | h2
      · exact Or.inr (List.mem_cons.mpr (Or.inl h2))
      · rcases ih x h2 with h3 | h3
        · exact Or.inl h3
        · exact Or.inr (List.mem_cons.mpr (Or.inr h3))

/-- A successfully resolved volume directive always holds a colon. -/
theorem resolve_ok_colon (fsE : String → Bool) (root v w : String)
    (h : resolve_volume fsE root v = Except.ok w) : ':' ∈ w.data := by
  unfold resolve_volume at h
  by_cases hc : ':' ∈ v.data
  · rw [if_pos hc] at h
    cases h
    exact hc
  · rw [if_neg hc] at h
    by_cases hf : fsE (get_path root v) = true
    · rw [if_pos hf] at h
      cases h
      exact mem_str_append_left _ _ (mem_str_append_right _ _ (by decide))
    · rw [if_neg hf] at h
      cases h

/-- On success, the volume loop returns the flattened pairs of a pointwise
resolved directive list. -/
theorem build_ok_shape (fsE : String → Bool) (root : String) :
    ∀ (vs va : List String), build_volume_args fsE root vs = Except.ok va →
    ∃ rs, List.Forall₂ (fun d r => resolve_volume fsE root d = Except.ok r) vs rs ∧
      va = volume_pairs rs := by
  intro vs
  induction vs with
  | nil =>
    intro va h
    refine ⟨[], List.Forall₂.nil, ?_⟩
    have h2 : Except.ok ([] : List String) = Except.ok va := h
    cases h2
    rfl
  | cons v rest ih =>
    intro va h
    simp only [build_volume_args] at h
    cases hr : resolve_volume fsE root v with
    | error e => rw [hr] at h; cases h
    | ok v2 =>
      rw [hr] at h
      cases hb : build_volume_args fsE root rest with
      | error e => rw [hb] at h; cases h
      | ok args2 =>
        rw [hb] at h
        cases h
        obtain ⟨rs, hf, hv⟩ := ih args2 hb
        exact ⟨v2 :: rs, List.Forall₂.cons hr hf, by simp [volume_pairs, hv]⟩

/-- If some directive fails to resolve, the volume loop raises. -/
theorem build_error_of_resolve_error (fsE : String → Bool) (root : String) :
    ∀ (vs : List String) (v : String), v ∈ vs →
    (∃ e0, resolve_volume fsE root v = Except.error e0) →
    ∃ e, build_volume_args fsE root vs = Except.error e := by
  intro vs
  induction vs with
  | nil => intro v hv; cases hv
  | cons w rest ih =>
    intro v hv he
    cases hr : resolve_volume fsE root w with
    | error e => exact ⟨e, by simp [build_volume_args, hr]⟩
    | ok w2 =>
      rcases List.mem_cons.mp hv with h1 | h1
      · obtain ⟨e0, he0⟩ := he
        rw [h1] at he0
        rw [he0] at hr
        cases hr
      · obtain ⟨e, hb⟩ := ih v h1 he
        exact ⟨e, by simp [build_volume_args, hr, hb]⟩

/-- Shape of a successful dc_command outcome: the subcommand, then the
volume pairs, then the untouched non-volume tokens. -/
theorem dc_ok_shape (fsE : String → Bool) (root c : String) (args toks : List String)
    (h : dc_command fsE root c args = Except.ok toks) :
    ∃ rs, List.Forall₂ (fun d r => resolve_volume fsE root d = Except.ok r)
        ((parse_volumes args).1) rs ∧
      toks = c :: (volume_pairs rs ++ (parse_volumes args).2) := by
  simp only [dc_command] at h
  cases hb : build_volume_args fsE root (parse_volumes args).1 with
  | error e => rw [hb] at h; cases h
  | ok va =>
    rw [hb] at h
    cases h
    obtain ⟨rs, hf, hv⟩ := build_ok_shape fsE root _ va hb
    exact ⟨rs, hf, by simp [hv]⟩

/-- A member of the right list of a pointwise relation has a counterpart. -/
theorem forall2_right_mem {α β : Type} {R : α → β → Prop} :
    ∀ {l1 : List α} {l2 : List β}, List.Forall₂ R l1 l2 →
    ∀ r ∈ l2, ∃ d, d ∈ l1 ∧ R d r := by
  intro l1 l2 h
  induction h with
  | nil => intro r hr; cases hr
  | cons h1 h2 ih =>
    intro r hr
    rcases List.mem_cons.mp hr with he | he
    · exact ⟨_, List.mem_cons_self _ _, he ▸ h1⟩
    · obtain ⟨d, hd, hR⟩ := ih r he
      exact ⟨d, List.mem_cons_of_mem _ hd, hR⟩

end Lemmas

/-- C1: when the job service name is a key of the parsed job-compose
services, run_job issues exactly one engine call, with the job-compose file
selected through the file flag and the token sequence running the job
service one-shot with container removal and the command under a strict
shell; the bare service name is never the target service. -/
theorem C1_run_job_targets_job_service (root : String) (jobsServices : List String)
    (tty : Bool) (s cmd : String) (h : s ++ ("-job") ∈ jobsServices) :
    (run_job root jobsServices tty s cmd).calls =
      [[("-f"), jobs_path root, ("run")] ++ (if tty then [] else [("-T")]) ++
        [("--rm"), s ++ ("-job"), ("sh"), ("-e"), ("-c"), cmd]] ∧
    ((run_job root jobsServices tty s cmd).calls).length = 1 ∧
    ((run_job root jobsServices tty s cmd).alerts).length = 0 ∧
    ∀ t ∈ (run_job root jobsServices tty s cmd).calls,
      token_after ("--rm") t = some (s ++ ("-job")) ∧
      token_after ("--rm") t ≠ some s := by
  rw [run_job_in root jobsServices tty s cmd h]
  refine ⟨rfl, rfl, rfl, ?_⟩
  intro t ht
  have ht2 := List.mem_singleton.mp ht
  subst ht2
  have hjp : jobs_path root ≠ ("--rm") := jobs_path_ne root _ (by decide)
  have hta : token_after ("--rm")
      ([("-f"), jobs_path root, ("run")] ++ (if tty then [] else [("-T")]) ++
        [("--rm"), s ++ ("-job"), ("sh"), ("-e"), ("-c"), cmd]) =
      some (s ++ ("-job")) := by
    cases tty with
    | true =>
      show token_after ("--rm")
        [("-f"), jobs_path root, ("run"),
          ("--rm"), s ++ ("-job"), ("sh"), ("-e"), ("-c"), cmd] = some (s ++ ("-job"))
      rw [token_after_cons_ne ("--rm") ("-f") _ (by decide)]
      rw [token_after_cons_ne ("--rm") (jobs_path root) _ hjp]
      rw [token_after_cons_ne ("--rm") ("run") _ (by decide)]
      rw [token_after_cons_eq]
      rfl
    | false =>
      show token_after ("--rm")
        [("-f"), jobs_path root, ("run"), ("-T"),
          ("--rm"), s ++ ("-job"), ("sh"), ("-e"), ("-c"), cmd] = some (s ++ ("-job"))
      rw [token_after_cons_ne ("--rm") ("-f") _ (by decide)]
      rw [token_after_cons_ne ("--rm") (jobs_path root) _ hjp]
      rw [token_after_cons_ne ("--rm") ("run") _ (by decide)]
      rw [token_after_cons_ne ("--rm") ("-T") _ (by decide)]
      rw [token_after_cons_eq]
      rfl
  refine ⟨hta, ?_⟩
  rw [hta]
  intro he
  exact append_job_ne_self s (Option.some.inj he)

/-- Witness for C1 at a concrete input. -/
theorem C1_witness :
    (run_job ("/r") ([("lms-job")]) true ("lms") ("echo 1")).calls =
      [[("-f"), ("/r/env/local/docker-compose.jobs.yml"), ("run"), ("--rm"),
        ("lms-job"), ("sh"), ("-e"), ("-c"), ("echo 1")]] := by
  have h := (C1_run_job_targets_job_service ("/r") ([("lms-job")]) true ("lms")
    ("echo 1") (by decide)).1
  rw [h]
  decide

set_option maxRecDepth 8000

/-- C2 counterexample: on the legacy fallback with a two-line command, the
single deprecation alert does not contain the literal command text, because
the newline inside it is rewritten with indentation. -/
theorem C2_counterexample :
    ((run_job ("/r") ([]) true ("lms") ("a\nb")).alerts).length = 1 ∧
    ((run_job ("/r") ([]) true ("lms") ("a\nb")).alerts.all
      (fun m => strContains m ("a\nb"))) = false := by
  constructor
  · rfl
  · decide

/-- C2 amended: on the legacy fallback run_job emits exactly one deprecation
alert, which contains the command text with each newline indented by four
spaces, and issues exactly one engine call against the bare service with
the same one-shot strict-shell shape and no job-compose file selection. -/
theorem C2_fallback_alert (root : String) (jobsServices : List String) (tty : Bool)
    (s cmd : String) (h : s ++ ("-job") ∉ jobsServices) :
    (run_job root jobsServices tty s cmd).alerts =
      [alert_message (s ++ ("-job")) (jobs_path root) cmd] ∧
    ((run_job root jobsServices tty s cmd).alerts).length = 1 ∧
    strContains (alert_message (s ++ ("-job")) (jobs_path root) cmd)
      (indent_command cmd) = true ∧
    (run_job root jobsServices tty s cmd).calls =
      [[("run")] ++ (if tty then [] else [("-T")]) ++
        [("--rm"), s, ("sh"), ("-e"), ("-c"), cmd]] ∧
    ((run_job root jobsServices tty s cmd).calls).length = 1 := by
  rw [run_job_notin root jobsServices tty s cmd h]
  exact ⟨rfl, rfl, alert_contains_indented _ _ _, rfl, rfl⟩

/-- Witness for the amended C2 at a concrete input. -/
theorem C2_witness :
    (run_job ("/r") ([]) true ("db") ("echo")).alerts =
      [alert_message (("db") ++ ("-job")) (jobs_path ("/r")) ("echo")] ∧
    strContains (alert_message (("db") ++ ("-job")) (jobs_path ("/r")) ("echo"))
      (indent_command ("echo")) = true ∧
    (run_job ("/r") ([]) true ("db") ("echo")).calls =
      [[("run"), ("--rm"), ("db"), ("sh"), ("-e"), ("-c"), ("echo")]] := by
  have h := C2_fallback_alert ("/r") ([]) true ("db") ("echo") (by decide)
  refine ⟨h.1, h.2.2.1, ?_⟩
  rw [h.2.2.2.1]
  rfl

/-- C4: reboot issues exactly the stop invocation followed by the start
invocation over the identical service list and detach flag, in that order,
and coincides with the spec-side composition of stop then start. -/
theorem C4_reboot_is_stop_then_start : ∀ (detach : Bool) (services : List String),
    reboot_calls detach services = stop_calls services ++ start_calls detach services ∧
    reboot_calls detach services = reboot_spec detach services ∧
    (reboot_calls detach services).length = 2 ∧
    reboot_calls detach services =
      [[("stop")] ++ services,
       [("up"), ("--remove-orphans")] ++ (if detach then [("-d")] else []) ++ services] := by
  intro detach services
  exact ⟨rfl, rfl, rfl, rfl⟩

/-- C5: when the literal token all appears anywhere in the requested names,
restart forwards one engine command with zero explicit service operands. -/
theorem C5_restart_all_global (cfg : Config) (services : List String)
    (h : ("all") ∈ services) :
    restart_command cfg services = [("restart")] ∧
    restart_calls cfg services = [[("restart")]] := by
  constructor
  · simp [restart_command, h]
  · simp [restart_calls, restart_command, h]

/-- Witness for C5 at a concrete input. -/
theorem C5_witness :
    restart_command { RUN_LMS := true, RUN_CMS := true } [("all"), ("anything")] =
      [("restart")] := by
  exact (C5_restart_all_global { RUN_LMS := true, RUN_CMS := true }
    ([("all"), ("anything")]) (by decide)).1

/-- C6: without the token all, each openedx token expands to the four
services in order when both flags are on, to the enabled pair when one flag
is on, and to nothing when both are off, in which case a no-op command with
no service operands is still forwarded; other tokens pass through unchanged
and accumulation follows the requested order. -/
theorem C6_restart_expansion (cfg : Config) (services : List String)
    (h : ("all") ∉ services) :
    restart_command cfg services = ("restart") :: restart_services cfg services ∧
    (cfg.RUN_LMS = true → cfg.RUN_CMS = true →
      restart_expand cfg ("openedx") =
        [("lms"), ("lms-worker"), ("cms"), ("cms-worker")]) ∧
    (cfg.RUN_LMS = true → cfg.RUN_CMS = false →
      restart_expand cfg ("openedx") = [("lms"), ("lms-worker")]) ∧
    (cfg.RUN_LMS = false → cfg.RUN_CMS = true →
      restart_expand cfg ("openedx") = [("cms"), ("cms-worker")]) ∧
    (cfg.RUN_LMS = false → cfg.RUN_CMS = false →
      restart_expand cfg ("openedx") = [] ∧
      restart_command cfg [("openedx")] = [("restart")] ∧
      (restart_calls cfg [("openedx")]).length = 1) ∧
    (∀ s, s ≠ ("openedx") → restart_expand cfg s = [s]) ∧
    (∀ s rest, restart_services cfg (s :: rest) =
      restart_expand cfg s ++ restart_services cfg rest) := by
  refine ⟨by simp [restart_command, h], ?_, ?_, ?_, ?_, ?_, ?_⟩
  · intro h1 h2; simp [restart_expand, h1, h2]
  · intro h1 h2; simp [restart_expand, h1, h2]
  · intro h1 h2; simp [restart_expand, h1, h2]
  · intro h1 h2
    refine ⟨by simp [restart_expand, h1, h2], ?_, rfl⟩
    simp [restart_command, restart_services, restart_expand, h1, h2]
  · intro s hs; simp [restart_expand, hs]
  · intro s rest; rfl

/-- Witness for C6 at a concrete input. -/
theorem C6_witness :
    restart_command { RUN_LMS := true, RUN_CMS := true } [("openedx")] =
      ("restart") :: restart_services { RUN_LMS := true, RUN_CMS := true }
        [("openedx")] ∧
    restart_expand { RUN_LMS := true, RUN_CMS := true } ("openedx") =
      [("lms"), ("lms-worker"), ("cms"), ("cms-worker")] := by
  have h := C6_restart_expansion { RUN_LMS := true, RUN_CMS := true }
    ([("openedx")]) (by decide)
  exact ⟨h.1, h.2.1 rfl rfl⟩

/-- C7: a volume directive without a colon is rewritten to the managed root
path joined with volumes and the name, then a colon, then the name, when
that path exists on disk; it raises the configuration error naming the
bind-mount creation command when the path does not exist; and a directive
holding a colon passes through unchanged in either case. -/
theorem C7_volume_resolution (fsE : String → Bool) (root c d : String) :
    (':' ∉ d.data → fsE (get_path root d) = true →
      resolve_volume fsE root d =
        Except.ok (root ++ ("/volumes/") ++ d ++ (":") ++ d)) ∧
    (':' ∉ d.data → fsE (get_path root d) = false →
      resolve_volume fsE root d =
        Except.error (volume_error_message (get_path root d)) ∧
      dc_command fsE root c [("--volume"), d] =
        Except.error (volume_error_message (get_path root d))) ∧
    (':' ∈ d.data →
      resolve_volume fsE root d = Except.ok d ∧
      dc_command fsE root c [("--volume"), d] =
        Except.ok [c, ("--volume"), d]) := by
  have hp : parse_volumes [("--volume"), d] = ([d], []) := by
    rw [parse_volumes_sep_flag ("--volume") d [] (Or.inl rfl)]
    rfl
  refine ⟨?_, ?_, ?_⟩
  · intro hc hf
    unfold resolve_volume
    rw [if_neg hc, if_pos hf]
    rfl
  · intro hc hf
    have hres : resolve_volume fsE root d =
        Except.error (volume_error_message (get_path root d)) := by
      unfold resolve_volume
      rw [if_neg hc, if_neg (by simp [hf])]
    refine ⟨hres, ?_⟩
    simp only [dc_command, hp]
    simp [build_volume_args, hres]
  · intro hc
    have hres : resolve_volume fsE root d = Except.ok d := by
      unfold resolve_volume
      rw [if_pos hc]
    refine ⟨hres, ?_⟩
    simp only [dc_command, hp]
    simp [build_volume_args, hres, volume_pairs]

/-- Witness for C7 at concrete inputs covering all three branches. -/
theorem C7_witness :
    resolve_volume (fun p => p = ("/r/volumes/foo")) ("/r") ("foo") =
      Except.ok (("/r") ++ ("/volumes/") ++ ("foo") ++ (":") ++ ("foo")) ∧
    (resolve_volume (fun _ => false) ("/r") ("foo") =
      Except.error (volume_error_message (get_path ("/r") ("foo"))) ∧
     dc_command (fun _ => false) ("/r") ("run") [("--volume"), ("foo")] =
      Except.error (volume_error_message (get_path ("/r") ("foo")))) ∧
    (resolve_volume (fun _ => false) ("/r") ("/a:foo") = Except.ok ("/a:foo") ∧
     dc_command (fun _ => false) ("/r") ("run") [("--volume"), ("/a:foo")] =
      Except.ok [("run"), ("--volume"), ("/a:foo")]) := by
  refine ⟨?_, ?_, ?_⟩
  · exact (C7_volume_resolution (fun p => p = ("/r/volumes/foo")) ("/r") ("run")
      ("foo")).1 (by decide) (by simp [get_path])
  · exact (C7_volume_resolution (fun _ => false) ("/r") ("run") ("foo")).2.1
      (by decide) rfl
  · exact (C7_volume_resolution (fun _ => false) ("/r") ("run") ("/a:foo")).2.2
      (by decide)

/-- C9: every successful dc_command token sequence is the subcommand, then
all volume flag and value pairs, then every non-volume token; the resolved
values answer the parsed directives pointwise in order, and the non-volume
tokens keep their original relative order as a subsequence of the raw
arguments. -/
theorem C9_volume_args_precede (fsE : String → Bool) (root c : String)
    (args toks : List String) (h : dc_command fsE root c args = Except.ok toks) :
    ∃ rs, List.Forall₂ (fun d r => resolve_volume fsE root d = Except.ok r)
        ((parse_volumes args).1) rs ∧
      toks = c :: (volume_pairs rs ++ (parse_volumes args).2) ∧
      ((parse_volumes args).2).Sublist args := by
  obtain ⟨rs, hf, hv⟩ := dc_ok_shape fsE root c args toks h
  exact ⟨rs, hf, hv, parse_volumes_snd_sublist args⟩

/-- Witness for C9 at a concrete input with a volume flag standing after an
ordinary token. -/
theorem C9_witness :
    ∃ rs, List.Forall₂
        (fun d r => resolve_volume (fun _ => true) ("/r") d = Except.ok r)
        ((parse_volumes [("a"), ("--volume"), ("x:y"), ("b")]).1) rs ∧
      [("run"), ("--volume"), ("x:y"), ("a"), ("b")] =
        ("run") :: (volume_pairs rs ++
          (parse_volumes [("a"), ("--volume"), ("x:y"), ("b")]).2) ∧
      ((parse_volumes [("a"), ("--volume"), ("x:y"), ("b")]).2).Sublist
        [("a"), ("--volume"), ("x:y"), ("b")] := by
  exact C9_volume_args_precede (fun _ => true) ("/r") ("run")
    ([("a"), ("--volume"), ("x:y"), ("b")])
    ([("run"), ("--volume"), ("x:y"), ("a"), ("b")]) rfl

/-- C10: when any parsed volume directive without a colon points at a
managed path missing on disk, dc_command raises the error and issues no
engine invocation at all, even when other directives resolve. -/
theorem C10_error_before_invocation (fsE : String → Bool) (root c : String)
    (args : List String) (v : String)
    (hv : v ∈ (parse_volumes args).1)
    (hc : ':' ∉ v.data)
    (he : fsE (get_path root v) = false) :
    engine_calls (dc_command fsE root c args) = [] ∧
    ∃ e, dc_command fsE root c args = Except.error e := by
  have hres : resolve_volume fsE root v =
      Except.error (volume_error_message (get_path root v)) := by
    unfold resolve_volume
    rw [if_neg hc, if_neg (by simp [he])]
  obtain ⟨e, hb⟩ := build_error_of_resolve_error fsE root _ v hv ⟨_, hres⟩
  have hd : dc_command fsE root c args = Except.error e := by
    simp only [dc_command, hb]
  refine ⟨?_, ⟨e, hd⟩⟩
  rw [hd]
  rfl

/-- C3 counterexample: under a non-interactive context the exec passthrough
assembles its token sequence without the no-tty flag, refuting the claim
that every exec-style invocation carries it there. -/
theorem C3_counterexample :
    execute (fun _ => false) ("/r") [("lms"), ("bash")] =
      Except.ok [("exec"), ("lms"), ("bash")] ∧
    ("-T") ∉ [("exec"), ("lms"), ("bash")] := by
  constructor
  · rfl
  · decide

/-- C3 amended: the no-tty flag is in the assembled token sequence exactly
when the context is non-interactive for run_job and for the run
passthrough, while the exec passthrough never adds it regardless of the
context. -/
theorem C3_no_tty_flag :
    (∀ (root : String) (js : List String) (tty : Bool) (s cmd : String),
      s ≠ ("-T") → cmd ≠ ("-T") →
      ∀ t ∈ (run_job root js tty s cmd).calls, (("-T") ∈ t ↔ tty = false)) ∧
    (∀ (fsE : String → Bool) (root : String) (tty : Bool) (args toks : List String),
      ("-T") ∉ args → run_passthrough fsE root tty args = Except.ok toks →
      (("-T") ∈ toks ↔ tty = false)) ∧
    (∀ (fsE : String → Bool) (root : String) (args toks : List String),
      ("-T") ∉ args → execute fsE root args = Except.ok toks →
      ("-T") ∉ toks) := by
  refine ⟨?_, ?_, ?_⟩
  · intro root js tty s cmd hs hcmd t ht
    have hjp : jobs_path root ≠ ("-T") := jobs_path_ne root _ (by decide)
    by_cases h : s ++ ("-job") ∈ js
    · rw [run_job_in root js tty s cmd h] at ht
      have ht2 := List.mem_singleton.mp ht
      subst ht2
      cases tty with
      | true =>
        constructor
        · intro hmem
          exfalso
          have hmem2 : ("-T") ∈ [("-f"), jobs_path root, ("run"),
              ("--rm"), s ++ ("-job"), ("sh"), ("-e"), ("-c"), cmd] := hmem
          simp only [List.mem_cons, List.not_mem_nil, or_false] at hmem2
          rcases hmem2 with h1|h1|h1|h1|h1|h1|h1|h1|h1
          · exact absurd h1 (by decide)
          · exact hjp h1.symm
          · exact absurd h1 (by decide)
          · exact absurd h1 (by decide)
          · exact append_job_ne_T s h1.symm
          · exact absurd h1 (by decide)
          · exact absurd h1 (by decide)
          · exact absurd h1 (by decide)
          · exact hcmd h1.symm
        · intro hh; exact absurd hh (by decide)
      | false =>
        constructor
        · intro _; rfl
        · intro _
          show ("-T") ∈ [("-f"), jobs_path root, ("run"), ("-T"),
            ("--rm"), s ++ ("-job"), ("sh"), ("-e"), ("-c"), cmd]
          exact List.mem_cons_of_mem _ (List.mem_cons_of_mem _
            (List.mem_cons_of_mem _ (List.mem_cons_self _ _)))
    · rw [run_job_notin root js tty s cmd h] at ht
      have ht2 := List.mem_singleton.mp ht
      subst ht2
      cases tty with
      | true =>
        constructor
        · intro hmem
          exfalso
          have hmem2 : ("-T") ∈ [("run"),
              ("--rm"), s, ("sh"), ("-e"), ("-c"), cmd] := hmem
          simp only [List.mem_cons, List.not_mem_nil, or_false] at hmem2
          rcases hmem2 with h1|h1|h1|h1|h1|h1|h1
          · exact absurd h1 (by decide)
          · exact absurd h1 (by decide)
          · exact hs h1.symm
          · exact absurd h1 (by decide)
          · exact absurd h1 (by decide)
          · exact absurd h1 (by decide)
          · exact hcmd h1.symm
        · intro hh; exact absurd hh (by decide)
      | false =>
        constructor
        · intro _; rfl
        · intro _
          show ("-T") ∈ [("run"), ("-T"),
            ("--rm"), s, ("sh"), ("-e"), ("-c"), cmd]
          exact List.mem_cons_of_mem _ (List.mem_cons_self _ _)
  · intro fsE root tty args toks hT h
    cases tty with
    | false =>
      have h2 : dc_command fsE root ("run") (("--rm") :: ("-T") :: args) =
          Except.ok toks := h
      obtain ⟨rs, hf, hv⟩ := dc_ok_shape _ _ _ _ _ h2
      have hp1 : parse_volumes (("--rm") :: ("-T") :: args) =
          ((parse_volumes args).1, ("--rm") :: ("-T") :: (parse_volumes args).2) := by
        rw [parse_volumes_other ("--rm") (("-T") :: args) (by decide) (by decide)]
        rw [parse_volumes_other ("-T") args (by decide) (by decide)]
      have e2 : (parse_volumes (("--rm") :: ("-T") :: args)).2 =
          ("--rm") :: ("-T") :: (parse_volumes args).2 := by
        rw [hp1]
      rw [e2] at hv
      constructor
      · intro _; rfl
      · intro _
        rw [hv]
        refine List.mem_cons_of_mem _ ?_
        refine List.mem_append_right _ ?_
        exact List.mem_cons_of_mem _ (List.mem_cons_self _ _)
    | true =>
      have h2 : dc_command fsE root ("run") (("--rm") :: args) =
          Except.ok toks := h
      obtain ⟨rs, hf, hv⟩ := dc_ok_shape _ _ _ _ _ h2
      have hp1 : parse_volumes (("--rm") :: args) =
          ((parse_volumes args).1, ("--rm") :: (parse_volumes args).2) := by
        rw [parse_volumes_other ("--rm") args (by decide) (by decide)]
      have e1 : (parse_volumes (("--rm") :: args)).1 = (parse_volumes args).1 := by
        rw [hp1]
      have e2 : (parse_volumes (("--rm") :: args)).2 =
          ("--rm") :: (parse_volumes args).2 := by
        rw [hp1]
      rw [e2] at hv
      rw [e1] at hf
      constructor
      · intro hmem
        exfalso
        rw [hv] at hmem
        rcases List.mem_cons.mp hmem with h1 | h1
        · exact absurd h1 (by decide)
        rcases List.mem_append.mp h1 with h2m | h2m
        · rcases mem_volume_pairs rs _ h2m with h3 | h3
          · exact absurd h3 (by decide)
          · obtain ⟨d, hd, hres⟩ := forall2_right_mem hf _ h3
            exact absurd (resolve_ok_colon fsE root d ("-T") hres) (by decide)
        · rcases List.mem_cons.mp h2m with h3 | h3
          · exact absurd h3 (by decide)
          · exact hT ((parse_volumes_snd_sublist args).subset h3)
      · intro hh; exact absurd hh (by decide)
  · intro fsE root args toks hT h
    have h2 : dc_command fsE root ("exec") args = Except.ok toks := h
    obtain ⟨rs, hf, hv⟩ := dc_ok_shape _ _ _ _ _ h2
    rw [hv]
    intro hmem
    rcases List.mem_cons.mp hmem with h1 | h1
    · exact absurd h1 (by decide)
    rcases List.mem_append.mp h1 with h2m | h2m
    · rcases mem_volume_pairs rs _ h2m with h3 | h3
      · exact absurd h3 (by decide)
      · obtain ⟨d, hd, hres⟩ := forall2_right_mem hf _ h3
        exact absurd (resolve_ok_colon fsE root d ("-T") hres) (by decide)
    · exact hT ((parse_volumes_snd_sublist args).subset h2m)

/-- Witness for the amended C3 at concrete inputs for both contexts. -/
theorem C3_witness :
    (("-T") ∈ [("run"), ("-T"), ("--rm"), ("lms"), ("sh"), ("-e"), ("-c"), ("echo")] ↔
      false = false) ∧
    (("-T") ∈ [("run"), ("--volume"), ("x:y"), ("--rm"), ("a")] ↔ true = false) := by
  constructor
  · exact C3_no_tty_flag.1 ("/r") ([]) false ("lms") ("echo") (by decide) (by decide)
      _ (by decide)
  · exact C3_no_tty_flag.2.1 (fun _ => true) ("/r") true
      ([("--volume"), ("x:y"), ("a")]) _ (by decide) rfl

/-- C8: each modelled core command issues exactly one engine call when it
completes, except reboot which issues exactly its stop call and then its
start call; run_job issues one call on either branch and restart issues one
call however its service list expands. -/
theorem C8_single_invocation :
    (∀ (root : String) (js : List String) (tty : Bool) (s cmd : String),
      ((run_job root js tty s cmd).calls).length = 1) ∧
    (∀ (d : Bool) (S : List String), (start_calls d S).length = 1) ∧
    (∀ S : List String, (stop_calls S).length = 1) ∧
    (∀ (cfg : Config) (S : List String), (restart_calls cfg S).length = 1) ∧
    (∀ (d : Bool) (S : List String), (reboot_calls d S).length = 2 ∧
      reboot_calls d S = stop_calls S ++ start_calls d S) ∧
    (∀ (fsE : String → Bool) (root c : String) (args toks : List String),
      dc_command fsE root c args = Except.ok toks →
      (engine_calls (dc_command fsE root c args)).length = 1) ∧
    (∀ (fsE : String → Bool) (root : String) (tty : Bool) (args toks : List String),
      run_passthrough fsE root tty args = Except.ok toks →
      (engine_calls (run_passthrough fsE root tty args)).length = 1) ∧
    (∀ (fsE : String → Bool) (root : String) (args toks : List String),
      execute fsE root args = Except.ok toks →
      (engine_calls (execute fsE root args)).length = 1) ∧
    (∀ (fsE : String → Bool) (root : String) (follow : Bool) (tail : Option Nat)
      (service toks : List String),
      logs fsE root follow tail service = Except.ok toks →
      (engine_calls (logs fsE root follow tail service)).length = 1) := by
  refine ⟨?_, ?_, ?_, ?_, ?_, ?_, ?_, ?_, ?_⟩
  · intro root js tty s cmd
    by_cases h : s ++ ("-job") ∈ js
    · rw [run_job_in root js tty s cmd h]
      rfl
    · rw [run_job_notin root js tty s cmd h]
      rfl
  · intro d S; rfl
  · intro S; rfl
  · intro cfg S; rfl
  · intro d S; exact ⟨rfl, rfl⟩
  · intro fsE root c args toks h; rw [h]; rfl
  · intro fsE root tty args toks h; rw [h]; rfl
  · intro fsE root args toks h; rw [h]; rfl
  · intro fsE root follow tail service toks h; rw [h]; rfl

/-- Witness for C8 at concrete inputs. -/
theorem C8_witness :
    ((run_job ("/r") ([]) true ("s") ("c")).calls).length = 1 ∧
    (engine_calls (dc_command (fun _ => true) ("/r") ("ps") [("a")])).length = 1 := by
  refine ⟨?_, ?_⟩
  · exact C8_single_invocation.1 ("/r") ([]) true ("s") ("c")
  · exact C8_single_invocation.2.2.2.2.2.1 (fun _ => true) ("/r") ("ps")
      ([("a")]) ([("ps"), ("a")]) rfl

/-- Witness for C10 at a concrete input where the first directive resolves
and the second one fails. -/
theorem C10_witness :
    engine_calls (dc_command (fun _ => false) ("/r") ("run")
      [("--volume"), ("a:b"), ("--volume"), ("foo")]) = [] ∧
    ∃ e, dc_command (fun _ => false) ("/r") ("run")
      [("--volume"), ("a:b"), ("--volume"), ("foo")] = Except.error e := by
  exact C10_error_before_invocation (fun _ => false) ("/r") ("run")
    ([("--volume"), ("a:b"), ("--volume"), ("foo")]) ("foo")
    (by decide) (by decide) rfl

end Tutor
